import Mathlib

/-!
# Verification of the `surface_nets` dual isosurface extractor

This file gives a shallow embedding of `surfacenets/surface_nets.py` and of the
`VoxelTopology` index arithmetic it calls, and proves the behavioural claims
about edge classification, face assembly, vertex placement and determinism.

Modelling conventions:
* Scalar samples are exact rationals (`ℚ`).  The one-cell pad of NaN sentinels
  added by `np.pad(..., constant_values=np.nan)` is modelled by `Option ℚ`
  (`none` = NaN).  IEEE rounding is idealized away; the sign/NaN structure of
  every operation the code performs is preserved exactly (see `rawT`).
* per-edge interpolation parameters after `t[~active_edge_mask] = np.nan` are
  `Option ℚ` as well, and `np.nanmean` becomes a mean over the `some` entries.
* `VoxelTopology` itself lives in `topology.py`, which is not part of the
  sources at hand; its three methods are modelled from the spec, marked below.
-/

namespace SurfaceNets

/-- A triple of grid indices (i, j, k). -/
abbrev Idx3 := ℕ × ℕ × ℕ

/-- A 3D point with rational (idealized floating point) coordinates. -/
abbrev Pt := ℚ × ℚ × ℚ

/-- Componentwise sum of two index triples. -/
def addIdx (a b : Idx3) : Idx3 := (a.1 + b.1, a.2.1 + b.2.1, a.2.2 + b.2.2)

/-- Componentwise (truncated) difference of two index triples. -/
def subIdx (a b : Idx3) : Idx3 := (a.1 - b.1, a.2.1 - b.2.1, a.2.2 - b.2.2)

/-- Componentwise order on index triples, as a Bool. -/
def geIdx (a b : Idx3) : Bool :=
  if b.1 ≤ a.1 ∧ b.2.1 ≤ a.2.1 ∧ b.2.2 ≤ a.2.2 then true else false

/-- The unit step along one of the three grid axes. -/
def unitVec : Fin 3 → Idx3
  | 0 => (1, 0, 0)
  | 1 => (0, 1, 0)
  | 2 => (0, 0, 1)

/-- An index triple as a rational point. -/
def toPt (p : Idx3) : Pt := ((p.1 : ℚ), (p.2.1 : ℚ), (p.2.2 : ℚ))

/-- Componentwise sum of points. -/
def ptAdd (a b : Pt) : Pt := (a.1 + b.1, a.2.1 + b.2.1, a.2.2 + b.2.2)

/-- Componentwise difference of points. -/
def ptSub (a b : Pt) : Pt := (a.1 - b.1, a.2.1 - b.2.1, a.2.2 - b.2.2)

/-- Componentwise product of points (used for the per-axis `spacing` scale). -/
def ptMul (a b : Pt) : Pt := (a.1 * b.1, a.2.1 * b.2.1, a.2.2 * b.2.2)

/-- Scale a point by a rational factor. -/
def ptSmul (c : ℚ) (a : Pt) : Pt := (c * a.1, c * a.2.1, c * a.2.2)

/-- Sum of a list of points. -/
def ptSum (l : List Pt) : Pt := l.foldr ptAdd (0, 0, 0)

/-- The input scalar grid: an (ni, nj, nk) array of SDF sample values.
`val i j k` is meaningful for `i < ni ∧ j < nj ∧ k < nk`. -/
structure SdfGrid where
  ni : ℕ
  nj : ℕ
  nk : ℕ
  val : ℕ → ℕ → ℕ → ℚ

/-- Sample of the padded array built by
`np.pad(sdf_values, ((1,1),(1,1),(1,1)), constant_values=np.nan)`:
indices shift by one, and every sample outside the original grid is the NaN
sentinel, modelled as `none`.  The padded shape is (ni+2, nj+2, nk+2). -/
def paddedVal (g : SdfGrid) (p : Idx3) : Option ℚ :=
  if 1 ≤ p.1 ∧ p.1 ≤ g.ni ∧ 1 ≤ p.2.1 ∧ p.2.1 ≤ g.nj ∧ 1 ≤ p.2.2 ∧ p.2.2 ≤ g.nk then
    some (g.val (p.1 - 1) (p.2.1 - 1) (p.2.2 - 1))
  else none

/-- A grid edge: the axis-aligned segment from grid point `src` to
`src + unitVec axis`.  Modelled from the spec: an edge is an "axis-aligned
segment between two grid points differing by one unit along exactly one
axis". -/
structure Edge where
  axis : Fin 3
  src : Idx3
deriving DecidableEq

/-- Destination grid point of an edge. -/
def edgeDst (e : Edge) : Idx3 := addIdx e.src (unitVec e.axis)

/-- Is a grid point inside a grid of shape (bi, bj, bk)? -/
def inBounds (bi bj bk : ℕ) (p : Idx3) : Bool :=
  if p.1 < bi ∧ p.2.1 < bj ∧ p.2.2 < bk then true else false

/-- Modelled from the spec: `VoxelTopology.find_edge_vertices` over
`range(top.num_edges)`, i.e. the deterministic enumeration of all grid edges
of a (bi, bj, bk) grid — every pair of in-bounds grid points one unit apart
along one axis, in a fixed axis-major order. -/
def edgeList (bi bj bk : ℕ) : List Edge :=
  (List.finRange 3).flatMap fun a =>
    (List.range bi).flatMap fun i =>
      (List.range bj).flatMap fun j =>
        (List.range bk).filterMap fun k =>
          if inBounds bi bj bk (addIdx (i, j, k) (unitVec a)) then
            some ⟨a, (i, j, k)⟩
          else none

/-- All edges of the padded grid of `g`. -/
def gridEdges (g : SdfGrid) : List Edge :=
  edgeList (g.ni + 2) (g.nj + 2) (g.nk + 2)

/-- Is a voxel (identified by its minimum-corner grid point) a cell of a grid
with (bi, bj, bk) grid points?  The cell spans one unit along each axis, so its
far corner must also be a grid point. -/
def voxInBounds (bi bj bk : ℕ) (v : Idx3) : Bool :=
  if v.1 + 1 < bi ∧ v.2.1 + 1 < bj ∧ v.2.2 + 1 < bk then true else false

/-- Modelled from the spec: the four voxels sharing an edge, in the fixed,
predetermined cyclic order that becomes the quad's vertex order.  An edge
along axis `a` is contained in the four cells obtained by stepping back by 0
or 1 along each of the two perpendicular axes. -/
def sharedVoxels (e : Edge) : List Idx3 :=
  let u := unitVec (e.axis + 1)
  let w := unitVec (e.axis + 2)
  [e.src, subIdx e.src u, subIdx e.src (addIdx u w), subIdx e.src w]

/-- Modelled from the spec: `complete_mask` of
`VoxelTopology.find_voxels_sharing_edge` — true exactly when all four sharing
voxels of the edge exist inside the grid (false on the grid boundary, where
fewer than four exist). -/
def completeMask (bi bj bk : ℕ) (e : Edge) : Bool :=
  geIdx e.src (addIdx (unitVec (e.axis + 1)) (unitVec (e.axis + 2))) &&
    (sharedVoxels e).all (voxInBounds bi bj bk)

/-- Modelled from the spec: `VoxelTopology.find_voxel_edges` — the twelve
bounding edges of a voxel, in a fixed canonical order (four edges along each
axis, one per corner pairing of the two perpendicular axes). -/
def voxelEdges (v : Idx3) : List Edge :=
  (List.finRange 3).flatMap fun a =>
    let u := unitVec (a + 1)
    let w := unitVec (a + 2)
    [⟨a, v⟩, ⟨a, addIdx v u⟩, ⟨a, addIdx v (addIdx u w)⟩, ⟨a, addIdx v w⟩]

/-- Modelled from the spec: the linear voxel index of a voxel of the padded
grid (row-major over the (ni+1, nj+1, nk+1) voxel lattice).  `np.unique`
sorts active voxels by this index. -/
def voxelId (g : SdfGrid) (v : Idx3) : ℕ :=
  v.1 * ((g.nj + 1) * (g.nk + 1)) + v.2.1 * (g.nk + 1) + v.2.2

/-- `sdf_diff = sdf_values[ti,tj,tk] - sdf_values[si,sj,sk]` — `none` when an
endpoint is the NaN sentinel (NaN propagates through the subtraction). -/
def sdfDiff (g : SdfGrid) (e : Edge) : Option ℚ :=
  match paddedVal g e.src, paddedVal g (edgeDst e) with
  | some v0, some v1 => some (v1 - v0)
  | _, _ => none

/-- `t = -sdf_values[si,sj,sk] / sdf_diff` under
`np.errstate(divide="ignore", invalid="ignore")`.  When an endpoint is NaN the
quotient is NaN; when `sdf_diff == 0` the quotient is ±inf (v0 ≠ 0) or NaN
(v0 = 0).  All three non-finite outcomes fail both comparisons of the
activity test below, so they are modelled uniformly as `none`. -/
def rawT (g : SdfGrid) (e : Edge) : Option ℚ :=
  match paddedVal g e.src, paddedVal g (edgeDst e) with
  | some v0, some v1 =>
      if v1 - v0 = 0 then none else some (-v0 / (v1 - v0))
  | _, _ => none

/-- `active_edge_mask = np.logical_and(t >= 0, t <= 1.0)` — comparisons with
NaN/±inf are false. -/
def activeEdgeMask (g : SdfGrid) (e : Edge) : Bool :=
  match rawT g e with
  | some t => if 0 ≤ t ∧ t ≤ 1 then true else false
  | none => false

/-- `t[~active_edge_mask] = np.nan`. -/
def maskedT (g : SdfGrid) (e : Edge) : Option ℚ :=
  if activeEdgeMask g e then rawT g e else none

/-- Vertex placement mode of `surface_nets`. -/
inductive Mode where
  | midpoint
  | naive
deriving DecidableEq

/-- `if vertex_placement_mode == "midpoint": t[:] = 0.5` — the midpoint mode
overwrites the t of every edge with 1/2; the naive mode keeps the masked
linear-interpolation parameters. -/
def placedT (g : SdfGrid) (mode : Mode) (e : Edge) : Option ℚ :=
  if mode = Mode.midpoint then some (1 / 2) else maskedT g e

/-- `edge_isect = (1 - t[:, None]) * sijk + t[:, None] * tijk` — NaN rows
(inactive edges in naive mode) stay `none`. -/
def edgeIsect (g : SdfGrid) (mode : Mode) (e : Edge) : Option Pt :=
  (placedT g mode e).map fun t =>
    ptAdd (ptSmul (1 - t) (toPt e.src)) (ptSmul t (toPt (edgeDst e)))

/-- `active_edges = np.where(active_edge_mask)[0]` — the active edges in
enumeration order. -/
def activeEdges (g : SdfGrid) : List Edge :=
  (gridEdges g).filter fun e => activeEdgeMask g e

/-- `active_edges = active_edges[complete_mask]` — drop every active edge
whose four sharing voxels do not all exist. -/
def survivingEdges (g : SdfGrid) : List Edge :=
  (activeEdges g).filter fun e => completeMask (g.ni + 2) (g.nj + 2) (g.nk + 2) e

/-- `sdf_diff[active_edges] < 0.0` — false when `sdf_diff` is NaN. -/
def flipFlag (g : SdfGrid) (e : Edge) : Bool :=
  match sdfDiff g e with
  | some d => if d < 0 then true else false
  | none => false

/-- `active_quads[flip_mask] = np.flip(active_quads[flip_mask], -1)` — the
voxel quad of an edge, reversed exactly when the edge's scalar difference is
negative. -/
def orientedQuad (g : SdfGrid) (e : Edge) : List Idx3 :=
  if flipFlag g e then (sharedVoxels e).reverse else sharedVoxels e

/-- `active_voxels = np.unique(active_quads)` — the distinct voxels named by
any surviving quad, sorted by linear voxel index.  (`np.unique` operates on
linear indices; `voxelId` is injective on in-grid voxels, so sorting the
coordinate triples by `voxelId` is the same enumeration.) -/
def activeVoxels (g : SdfGrid) : List Idx3 :=
  List.insertionSort (fun a b => voxelId g a ≤ voxelId g b)
    (((survivingEdges g).flatMap fun e => orientedQuad g e).dedup)

/-- `faces = np.unique(..., return_inverse=True)` reshaped to (-1, 4): each
surviving edge yields the quad of positions of its four (oriented) sharing
voxels inside `activeVoxels`. -/
def quadFaces (g : SdfGrid) : List (List ℕ) :=
  (survivingEdges g).map fun e =>
    (orientedQuad g e).map fun v => (activeVoxels g).indexOf v

/-- Sum of the non-NaN (`some`) entries of a list of optional points. -/
def someSum : List (Option Pt) → Pt
  | [] => (0, 0, 0)
  | none :: l => someSum l
  | some p :: l => ptAdd p (someSum l)

/-- Number of non-NaN (`some`) entries of a list of optional points. -/
def someCount : List (Option Pt) → ℕ
  | [] => 0
  | none :: l => someCount l
  | some _ :: l => someCount l + 1

/-- `np.nanmean` over a list of points that are each entirely NaN (`none`) or
entirely finite (`some`): the componentwise mean of the `some` entries, NaN
(`none`) when there are none. -/
def nanMean (l : List (Option Pt)) : Option Pt :=
  if someCount l = 0 then none
  else some (ptSmul ((someCount l : ℚ))⁻¹ (someSum l))

/-- `verts = (np.nanmean(e, 1) - (1,1,1)) * spacing` — one vertex per active
voxel: the nanmean of the voxel's twelve edge-intersection rows, shifted back
by the one-cell padding and scaled per-axis by `spacing`. -/
def vertices (g : SdfGrid) (spacing : Pt) (mode : Mode) : List (Option Pt) :=
  (activeVoxels g).map fun v =>
    (nanMean ((voxelEdges v).map fun e => edgeIsect g mode e)).map fun p =>
      ptMul (ptSub p (1, 1, 1)) spacing

/-- Quad-to-triangle split: `tris[:,0] = faces[:,[0,1,2]]`,
`tris[:,1] = faces[:,[0,2,3]]` — each quad [a,b,c,d] becomes the triangles
[a,b,c] and [a,c,d].  (Every face produced upstream has four entries, so the
catch-all branch is never taken.) -/
def triangulateFaces (fs : List (List ℕ)) : List (List ℕ) :=
  fs.flatMap fun f =>
    match f with
    | [a, b, c, d] => [[a, b, c], [a, c, d]]
    | f => [f]

/-- The full `surface_nets(sdf_values, spacing, vertex_placement_mode,
triangulate)` pipeline: returns the vertex list and the face list. -/
def surface_nets (g : SdfGrid) (spacing : Pt) (mode : Mode) (tri : Bool) :
    List (Option Pt) × List (List ℕ) :=
  (vertices g spacing mode,
   if tri then triangulateFaces (quadFaces g) else quadFaces g)

/-- The sign of a rational, as used by the spec's `sign(v0) != sign(v1)`
activity condition (numpy convention: sign 0 = 0). -/
def qsign (q : ℚ) : ℤ :=
  if q < 0 then -1 else if 0 < q then 1 else 0

/-- The crossing point of an edge from its masked interpolation parameter
(spec side of claim C5: "the crossing point of an active edge"). -/
def crossingPt (g : SdfGrid) (e : Edge) : Pt :=
  ptAdd (ptSmul (1 - (maskedT g e).getD 0) (toPt e.src))
    (ptSmul ((maskedT g e).getD 0) (toPt (edgeDst e)))

/-- Spec side of claim C5: the crossing points of exactly the active edges of
one voxel — the twelve voxel edges filtered by the activity mask, inactive
edges excluded. -/
def activeCrossings (g : SdfGrid) (v : Idx3) : List Pt :=
  ((voxelEdges v).filter fun e => activeEdgeMask g e).map fun e => crossingPt g e

/-- A concrete 1×1×2 sample grid with values (-1, 3): exactly one sign
change, whose linear interpolation parameter is 1/4. -/
def gEx : SdfGrid := ⟨1, 1, 2, fun _ _ k => if k = 0 then -1 else 3⟩

/-- The single active edge of `gEx`: from padded grid point (1,1,1) to
(1,1,2), along the third axis. -/
def eEx : Edge := ⟨2, (1, 1, 1)⟩

/-- A concrete 1×1×1 sample grid with the constant (strictly positive)
value 1. -/
def gUniform : SdfGrid := ⟨1, 1, 1, fun _ _ _ => 1⟩

/-- A concrete 1×1×2 sample grid with the constant value 1: its interior edge
has equal endpoint samples, i.e. a zero interpolation denominator. -/
def gFlat : SdfGrid := ⟨1, 1, 2, fun _ _ _ => 1⟩

theorem qsign_neg {q : ℚ} (h : q < 0) : qsign q = -1 := if_pos h

theorem qsign_pos {q : ℚ} (h : 0 < q) : qsign q = 1 := by
  rw [qsign, if_neg (not_lt.mpr h.le), if_pos h]

theorem qsign_zero : qsign 0 = 0 := by norm_num [qsign]

/-- Core arithmetic fact behind the activity test: for finite endpoint values,
the interpolation parameter `-v0 / (v1 - v0)` is well defined and lies in
[0, 1] exactly when the endpoint signs differ. -/
theorem mask_iff_sign (v0 v1 : ℚ) :
    (v1 - v0 ≠ 0 ∧ 0 ≤ -v0 / (v1 - v0) ∧ -v0 / (v1 - v0) ≤ 1) ↔ qsign v0 ≠ qsign v1 := by
  rcases lt_trichotomy v0 0 with h0 | h0 | h0 <;>
    rcases lt_trichotomy v1 0 with h1 | h1 | h1
  · -- both negative: inactive, equal signs
    refine iff_of_false ?_ (by rw [qsign_neg h0, qsign_neg h1]; simp)
    rintro ⟨hd, h0t, h1t⟩
    rcases lt_or_gt_of_ne (sub_ne_zero.mp hd) with hlt | hgt
    · have ht : -v0 / (v1 - v0) < 0 := div_neg_of_pos_of_neg (by linarith) (by linarith)
      linarith
    · rw [div_le_one (by linarith)] at h1t
      linarith
  · -- v0 < 0, v1 = 0: active (t = 1)
    subst h1
    refine iff_of_true ⟨?_, ?_, ?_⟩ (by rw [qsign_neg h0, qsign_zero]; simp)
    · rw [zero_sub, neg_ne_zero]
      exact ne_of_lt h0
    · rw [zero_sub]
      exact div_nonneg (by linarith) (by linarith)
    · rw [zero_sub]
      exact le_of_eq (div_self (ne_of_gt (by linarith : (0 : ℚ) < -v0)))
  · -- v0 < 0 < v1: active
    have hd : (0 : ℚ) < v1 - v0 := by linarith
    refine iff_of_true ⟨ne_of_gt hd, div_nonneg (by linarith) hd.le, ?_⟩
      (by rw [qsign_neg h0, qsign_pos h1]; simp)
    rw [div_le_one hd]
    linarith
  · -- v0 = 0, v1 < 0: active (t = 0)
    subst h0
    refine iff_of_true ⟨?_, ?_, ?_⟩ (by rw [qsign_zero, qsign_neg h1]; simp)
    · rw [sub_zero]
      exact ne_of_lt h1
    · rw [neg_zero, zero_div]
    · rw [neg_zero, zero_div]
      norm_num
  · -- both zero: inactive
    subst h0; subst h1
    refine iff_of_false ?_ (by simp)
    rintro ⟨hd, -, -⟩
    simp at hd
  · -- v0 = 0 < v1: active (t = 0)
    subst h0
    refine iff_of_true ⟨?_, ?_, ?_⟩ (by rw [qsign_zero, qsign_pos h1]; simp)
    · rw [sub_zero]
      exact ne_of_gt h1
    · rw [neg_zero, zero_div]
    · rw [neg_zero, zero_div]
      norm_num
  · -- v0 > 0, v1 < 0: active
    have hd : v1 - v0 < 0 := by linarith
    refine iff_of_true ⟨ne_of_lt hd, ?_, ?_⟩ (by rw [qsign_pos h0, qsign_neg h1]; simp)
    · rw [div_nonneg_iff]
      right
      exact ⟨by linarith, hd.le⟩
    · rw [div_le_one_iff]
      right; right
      exact ⟨hd, by linarith⟩
  · -- v0 > 0, v1 = 0: active (t = 1)
    subst h1
    refine iff_of_true ⟨?_, ?_, ?_⟩ (by rw [qsign_pos h0, qsign_zero]; simp)
    · rw [zero_sub, neg_ne_zero]
      exact ne_of_gt h0
    · rw [zero_sub, neg_div_neg_eq]
      exact div_nonneg h0.le h0.le
    · rw [zero_sub, neg_div_neg_eq]
      exact le_of_eq (div_self (ne_of_gt h0))
  · -- both positive: inactive
    refine iff_of_false ?_ (by rw [qsign_pos h0, qsign_pos h1]; simp)
    rintro ⟨hd, h0t, h1t⟩
    rcases lt_or_gt_of_ne (sub_ne_zero.mp hd) with hlt | hgt
    · rw [div_le_one_iff] at h1t
      rcases h1t with ⟨hb, -⟩ | hb | ⟨-, hb⟩
      · linarith
      · linarith
      · linarith
    · have ht : -v0 / (v1 - v0) < 0 := div_neg_of_neg_of_pos (by linarith) (by linarith)
      linarith

/-- The activity mask, characterized through the endpoint values: with both
endpoints finite, the edge is active exactly when the endpoint signs differ. -/
theorem activeEdgeMask_some {g : SdfGrid} {e : Edge} {v0 v1 : ℚ}
    (h0 : paddedVal g e.src = some v0) (h1 : paddedVal g (edgeDst e) = some v1) :
    activeEdgeMask g e = true ↔ qsign v0 ≠ qsign v1 := by
  rw [← mask_iff_sign v0 v1]
  unfold activeEdgeMask rawT
  rw [h0, h1]
  by_cases hd : v1 - v0 = 0
  · simp [hd]
  · simp only [hd, if_false]
    by_cases ht : 0 ≤ -v0 / (v1 - v0) ∧ -v0 / (v1 - v0) ≤ 1
    · simp [ht, hd]
    · simp [ht, hd]

/-- The activity mask is false whenever an endpoint is the NaN sentinel. -/
theorem activeEdgeMask_nan {g : SdfGrid} {e : Edge}
    (h : paddedVal g e.src = none ∨ paddedVal g (edgeDst e) = none) :
    activeEdgeMask g e = false := by
  unfold activeEdgeMask rawT
  rcases h with h | h
  · rw [h]
  · rw [h]
    rcases paddedVal g e.src with _ | v0 <;> rfl

/-- An edge keeps a crossing parameter after the masking step exactly when it
is active. -/
theorem maskedT_isSome (g : SdfGrid) (e : Edge) :
    (maskedT g e).isSome = activeEdgeMask g e := by
  rw [maskedT]
  cases h : activeEdgeMask g e
  · simp
  · simp only [if_pos rfl, if_true]
    unfold activeEdgeMask at h
    rcases hr : rawT g e with _ | t
    · rw [hr] at h
      simp at h
    · simp

/-- On an active edge with finite endpoint values, the raw interpolation
parameter is the linear estimate `-v0 / (v1 - v0)`. -/
theorem rawT_of_active {g : SdfGrid} {e : Edge} {v0 v1 : ℚ}
    (h0 : paddedVal g e.src = some v0) (h1 : paddedVal g (edgeDst e) = some v1)
    (ha : activeEdgeMask g e = true) :
    rawT g e = some (-v0 / (v1 - v0)) := by
  by_cases hd : v1 - v0 = 0
  · exfalso
    have hr : rawT g e = none := by
      rw [rawT, h0, h1]
      show (if v1 - v0 = 0 then none else some (-v0 / (v1 - v0))) = none
      rw [if_pos hd]
    unfold activeEdgeMask at ha
    rw [hr] at ha
    simp at ha
  · rw [rawT, h0, h1]
    show (if v1 - v0 = 0 then none else some (-v0 / (v1 - v0))) = some (-v0 / (v1 - v0))
    rw [if_neg hd]

/-- C1: an edge of the padded grid is classified active if and only if its two
endpoint sample values exist (are not the NaN pad sentinel) and have opposite
signs; exactly the active edges keep a crossing parameter after masking, and
the candidate set entering face generation is exactly the set of active
edges. -/
theorem C1_active_edge_classification (g : SdfGrid) (e : Edge) :
    (activeEdgeMask g e = true ↔
      ∃ v0 v1 : ℚ, paddedVal g e.src = some v0 ∧ paddedVal g (edgeDst e) = some v1 ∧
        qsign v0 ≠ qsign v1) ∧
    (maskedT g e).isSome = activeEdgeMask g e ∧
    (e ∈ activeEdges g ↔ e ∈ gridEdges g ∧ activeEdgeMask g e = true) := by
  refine ⟨?_, ?_, ?_⟩
  · rcases h0 : paddedVal g e.src with _ | v0
    · rw [activeEdgeMask_nan (Or.inl h0)]
      simp [h0]
    · rcases h1 : paddedVal g (edgeDst e) with _ | v1
      · rw [activeEdgeMask_nan (Or.inr h1)]
        simp [h1]
      · rw [activeEdgeMask_some h0 h1]
        constructor
        · exact fun h => ⟨v0, v1, rfl, rfl, h⟩
        · rintro ⟨w0, w1, hw0, hw1, hne⟩
          obtain rfl : v0 = w0 := Option.some.inj hw0
          obtain rfl : v1 = w1 := Option.some.inj hw1
          exact hne
  · exact maskedT_isSome g e
  · unfold activeEdges
    rw [List.mem_filter]

/-- C2: with `triangulate = false` the emitted face list has exactly one quad
per active edge whose four sharing voxels all exist (`complete_mask` true);
incomplete active edges contribute nothing, and every emitted face has exactly
four vertex indices — no partial or degenerate face. -/
theorem C2_face_count_complete_edges (g : SdfGrid) (sp : Pt) (mode : Mode) :
    (surface_nets g sp mode false).2.length =
      ((activeEdges g).filter fun e =>
        completeMask (g.ni + 2) (g.nj + 2) (g.nk + 2) e).length ∧
    ∀ f ∈ (surface_nets g sp mode false).2, f.length = 4 := by
  constructor
  · rw [show (surface_nets g sp mode false).2 = quadFaces g from rfl, quadFaces,
      List.length_map]
    rfl
  · intro f hf
    rw [show (surface_nets g sp mode false).2 = quadFaces g from rfl] at hf
    obtain ⟨e, -, rfl⟩ := List.mem_map.mp hf
    rw [List.length_map, orientedQuad]
    split_ifs
    · rw [List.length_reverse]
      rfl
    · rfl

/-- C3: the face emitted for the m-th surviving active edge lists the (vertex
indices of the) edge's four sharing voxels in the topology's fixed order,
with the whole winding reversed exactly when the edge's scalar difference
`v1 - v0` is negative; for `v1 - v0 ≥ 0` the original order is kept. -/
theorem C3_face_order_and_winding (g : SdfGrid) (m : ℕ) (e : Edge) (v0 v1 : ℚ)
    (hm : (survivingEdges g)[m]? = some e)
    (h0 : paddedVal g e.src = some v0) (h1 : paddedVal g (edgeDst e) = some v1) :
    (quadFaces g)[m]? = some
      ((if v1 - v0 < 0 then (sharedVoxels e).reverse else sharedVoxels e).map
        fun v => (activeVoxels g).indexOf v) := by
  have hd : flipFlag g e = if v1 - v0 < 0 then true else false := by
    rw [flipFlag, sdfDiff, h0, h1]
  rw [quadFaces, List.getElem?_map, hm, Option.map_some']
  congr 1
  rw [orientedQuad, hd]
  by_cases h : v1 - v0 < 0 <;> simp [h]

/-- Unfolding of the padded grid: a non-sentinel sample is a sample of the
original grid. -/
theorem paddedVal_eq_some {g : SdfGrid} {p : Idx3} {v : ℚ}
    (h : paddedVal g p = some v) :
    ∃ i j k, i < g.ni ∧ j < g.nj ∧ k < g.nk ∧ v = g.val i j k := by
  unfold paddedVal at h
  split_ifs at h with hb
  · obtain ⟨h1, h2, h3, h4, h5, h6⟩ := hb
    exact ⟨p.1 - 1, p.2.1 - 1, p.2.2 - 1, by omega, by omega, by omega,
      (Option.some.inj h).symm⟩

/-- On a field of uniform strict sign, no edge is ever active. -/
theorem mask_false_of_uniform {g : SdfGrid}
    (h : (∀ i j k, i < g.ni → j < g.nj → k < g.nk → 0 < g.val i j k) ∨
         (∀ i j k, i < g.ni → j < g.nj → k < g.nk → g.val i j k < 0))
    (e : Edge) : activeEdgeMask g e = false := by
  by_contra hc
  rw [Bool.not_eq_false] at hc
  rcases h0 : paddedVal g e.src with _ | v0
  · rw [activeEdgeMask_nan (Or.inl h0)] at hc
    cases hc
  rcases h1 : paddedVal g (edgeDst e) with _ | v1
  · rw [activeEdgeMask_nan (Or.inr h1)] at hc
    cases hc
  have hs := (activeEdgeMask_some h0 h1).mp hc
  obtain ⟨i0, j0, k0, hi0, hj0, hk0, rfl⟩ := paddedVal_eq_some h0
  obtain ⟨i1, j1, k1, hi1, hj1, hk1, rfl⟩ := paddedVal_eq_some h1
  rcases h with hpos | hneg
  · rw [qsign_pos (hpos i0 j0 k0 hi0 hj0 hk0), qsign_pos (hpos i1 j1 k1 hi1 hj1 hk1)] at hs
    exact hs rfl
  · rw [qsign_neg (hneg i0 j0 k0 hi0 hj0 hk0), qsign_neg (hneg i1 j1 k1 hi1 hj1 hk1)] at hs
    exact hs rfl

/-- C4: on an input whose samples are all strictly positive or all strictly
negative, `surface_nets` returns empty vertex and face arrays, in both
placement modes and for both values of the triangulate flag. -/
theorem C4_uniform_sign_empty (g : SdfGrid) (sp : Pt) (mode : Mode) (tri : Bool)
    (h : (∀ i j k, i < g.ni → j < g.nj → k < g.nk → 0 < g.val i j k) ∨
         (∀ i j k, i < g.ni → j < g.nj → k < g.nk → g.val i j k < 0)) :
    surface_nets g sp mode tri = ([], []) := by
  have ha : activeEdges g = [] := by
    rw [activeEdges, List.filter_eq_nil_iff]
    intro e _
    rw [mask_false_of_uniform h e]
    exact Bool.false_ne_true
  have hs : survivingEdges g = [] := by
    rw [survivingEdges, ha]
    rfl
  have hv : activeVoxels g = [] := by
    rw [activeVoxels, hs]
    rfl
  have hq : quadFaces g = [] := by
    rw [quadFaces, hs]
    rfl
  have hver : vertices g sp mode = [] := by
    rw [vertices, hv]
    rfl
  rw [surface_nets, hq, hver]
  cases tri
  · rfl
  · rfl

/-- C7 counterexample: on the concrete grid `gEx` (samples -1 and 3) the
active edge `eEx` is, in naive placement mode, resolved at the linear
interpolation parameter 1/4 — not at the midpoint 1/2 as claimed. -/
theorem C7_counterexample_naive_uses_linear_t :
    activeEdgeMask gEx eEx = true ∧
    placedT gEx Mode.naive eEx = some (1 / 4) ∧
    placedT gEx Mode.naive eEx ≠ some (1 / 2) := by
  have ha : activeEdgeMask gEx eEx = true := by
    norm_num [activeEdgeMask, rawT, paddedVal, gEx, eEx, edgeDst, addIdx, unitVec]
  have ht : placedT gEx Mode.naive eEx = some (1 / 4) := by
    rw [placedT, if_neg (by decide : ¬(Mode.naive = Mode.midpoint)), maskedT, ha]
    norm_num [rawT, paddedVal, gEx, eEx, edgeDst, addIdx, unitVec]
  refine ⟨ha, ht, ?_⟩
  rw [ht]
  intro hc
  have := Option.some.inj hc
  norm_num at this

/-- C7 (amended): the midpoint placement mode uses `t = 1/2` on every edge
regardless of the sample values; the naive placement mode instead uses, on
every active edge, the linear interpolation parameter `t = -v0 / (v1 - v0)`
from the endpoint samples. -/
theorem C7_amended_midpoint_half_naive_linear (g : SdfGrid) (e : Edge) (v0 v1 : ℚ)
    (h0 : paddedVal g e.src = some v0) (h1 : paddedVal g (edgeDst e) = some v1)
    (ha : activeEdgeMask g e = true) :
    placedT g Mode.midpoint e = some (1 / 2) ∧
    placedT g Mode.naive e = some (-v0 / (v1 - v0)) := by
  constructor
  · rfl
  · rw [placedT, if_neg (by decide : ¬(Mode.naive = Mode.midpoint)), maskedT, ha]
    simp only [if_pos]
    exact rawT_of_active h0 h1 ha

/-- C8 counterexample: on the concrete grid `gFlat` (both samples 1) the edge
`eEx` has an exactly zero interpolation denominator; the code drops the edge
(its t is the NaN sentinel) instead of treating the crossing as the midpoint
`t = 1/2` as claimed. -/
theorem C8_counterexample_zero_denominator_drops :
    paddedVal gFlat eEx.src = some 1 ∧
    paddedVal gFlat (edgeDst eEx) = some 1 ∧
    activeEdgeMask gFlat eEx = false ∧
    maskedT gFlat eEx = none ∧
    maskedT gFlat eEx ≠ some (1 / 2) := by
  have h0 : paddedVal gFlat eEx.src = some 1 := by
    norm_num [paddedVal, gFlat, eEx]
  have h1 : paddedVal gFlat (edgeDst eEx) = some 1 := by
    norm_num [paddedVal, gFlat, eEx, edgeDst, addIdx, unitVec]
  have hr : rawT gFlat eEx = none := by
    rw [rawT, h0, h1]
    show (if (1 : ℚ) - 1 = 0 then none else some (-1 / ((1 : ℚ) - 1))) = none
    rw [if_pos (sub_self (1 : ℚ))]
  have hm : activeEdgeMask gFlat eEx = false := by
    unfold activeEdgeMask
    rw [hr]
  have hmask : maskedT gFlat eEx = none := by
    simp [maskedT, hm]
  exact ⟨h0, h1, hm, hmask, by rw [hmask]; exact fun hc => Option.noConfusion hc⟩

/-- C8 (amended): when the interpolation denominator `v1 - v0` is exactly
zero, the suppressed division produces a non-finite `t`, the edge fails the
`t ∈ [0,1]` activity test and is excluded (its t set to the NaN sentinel);
it is never assigned a midpoint crossing. -/
theorem C8_amended_zero_denominator_inactive (g : SdfGrid) (e : Edge) (v : ℚ)
    (h0 : paddedVal g e.src = some v) (h1 : paddedVal g (edgeDst e) = some v) :
    rawT g e = none ∧ activeEdgeMask g e = false ∧ maskedT g e = none := by
  have hr : rawT g e = none := by
    rw [rawT, h0, h1]
    show (if v - v = 0 then none else some (-v / (v - v))) = none
    rw [if_pos (sub_self v)]
  have hm : activeEdgeMask g e = false := by
    unfold activeEdgeMask
    rw [hr]
  exact ⟨hr, hm, by simp [maskedT, hm]⟩

/-- In naive mode an active edge's intersection row is its crossing point. -/
theorem edgeIsect_naive_active {g : SdfGrid} {e : Edge}
    (ha : activeEdgeMask g e = true) :
    edgeIsect g Mode.naive e = some (crossingPt g e) := by
  obtain ⟨t, ht⟩ : ∃ t, maskedT g e = some t := by
    have hs := maskedT_isSome g e
    rw [ha] at hs
    exact Option.isSome_iff_exists.mp hs
  rw [edgeIsect, placedT, if_neg (by decide : ¬(Mode.naive = Mode.midpoint)), ht,
    Option.map_some', crossingPt, ht]
  rfl

/-- In naive mode an inactive edge's intersection row is the NaN sentinel. -/
theorem edgeIsect_naive_inactive {g : SdfGrid} {e : Edge}
    (ha : activeEdgeMask g e = false) :
    edgeIsect g Mode.naive e = none := by
  rw [edgeIsect, placedT, if_neg (by decide : ¬(Mode.naive = Mode.midpoint)), maskedT, ha]
  rfl

/-- The nanmean denominator over a voxel's intersection rows counts exactly
the active edges. -/
theorem someCount_naive (g : SdfGrid) (l : List Edge) :
    someCount (l.map fun e => edgeIsect g Mode.naive e) =
      ((l.filter fun e => activeEdgeMask g e).map fun e => crossingPt g e).length := by
  induction l with
  | nil => rfl
  | cons e tl ih =>
    rw [List.map_cons, List.filter_cons]
    cases h : activeEdgeMask g e
    · rw [edgeIsect_naive_inactive h]
      simpa [someCount] using ih
    · rw [edgeIsect_naive_active h]
      simpa [someCount] using ih

/-- The nanmean numerator over a voxel's intersection rows sums exactly the
active edges' crossing points. -/
theorem someSum_naive (g : SdfGrid) (l : List Edge) :
    someSum (l.map fun e => edgeIsect g Mode.naive e) =
      ptSum ((l.filter fun e => activeEdgeMask g e).map fun e => crossingPt g e) := by
  induction l with
  | nil => rfl
  | cons e tl ih =>
    rw [List.map_cons, List.filter_cons]
    cases h : activeEdgeMask g e
    · rw [edgeIsect_naive_inactive h]
      simpa [someSum] using ih
    · rw [edgeIsect_naive_active h]
      simp only [someSum, ptSum, List.map_cons, List.foldr_cons, if_pos]
      rw [ih, ptSum]

theorem addIdx_subIdx_cancel {s u : Idx3} (h1 : u.1 ≤ s.1) (h2 : u.2.1 ≤ s.2.1)
    (h3 : u.2.2 ≤ s.2.2) : addIdx (subIdx s u) u = s := by
  obtain ⟨s1, s2, s3⟩ := s
  obtain ⟨u1, u2, u3⟩ := u
  simp only [addIdx, subIdx, Prod.mk.injEq] at *
  omega

/-- Incidence: an edge with a complete voxel neighborhood is one of the twelve
bounding edges of each of its sharing voxels. -/
theorem edge_mem_voxelEdges {bi bj bk : ℕ} {e : Edge} {v : Idx3}
    (hc : completeMask bi bj bk e = true) (hv : v ∈ sharedVoxels e) :
    e ∈ voxelEdges v := by
  obtain ⟨a, s⟩ := e
  rw [completeMask, Bool.and_eq_true] at hc
  obtain ⟨hg, -⟩ := hc
  rw [geIdx] at hg
  split_ifs at hg with hb
  obtain ⟨hg1, hg2, hg3⟩ := hb
  simp only [addIdx] at hg1 hg2 hg3
  simp only [sharedVoxels, List.mem_cons, List.not_mem_nil, or_false] at hv
  rw [voxelEdges]
  apply List.mem_flatMap.mpr
  refine ⟨a, List.mem_finRange a, ?_⟩
  rcases hv with rfl | rfl | rfl | rfl
  · simp
  · have hs : addIdx (subIdx s (unitVec (a + 1))) (unitVec (a + 1)) = s :=
      addIdx_subIdx_cancel (by omega) (by omega) (by omega)
    simp [hs]
  · have hs : addIdx (subIdx s (addIdx (unitVec (a + 1)) (unitVec (a + 2))))
        (addIdx (unitVec (a + 1)) (unitVec (a + 2))) = s :=
      addIdx_subIdx_cancel (by simp only [addIdx]; omega) (by simp only [addIdx]; omega)
        (by simp only [addIdx]; omega)
    simp [hs]
  · have hs : addIdx (subIdx s (unitVec (a + 2))) (unitVec (a + 2)) = s :=
      addIdx_subIdx_cancel (by omega) (by omega) (by omega)
    simp [hs]

/-- Every active voxel has at least one active edge among its twelve bounding
edges. -/
theorem exists_active_edge_of_mem_activeVoxels {g : SdfGrid} {v : Idx3}
    (h : v ∈ activeVoxels g) : ∃ e ∈ voxelEdges v, activeEdgeMask g e = true := by
  rw [activeVoxels] at h
  rw [(List.perm_insertionSort _ _).mem_iff, List.mem_dedup, List.mem_flatMap] at h
  obtain ⟨e, he, hvq⟩ := h
  rw [survivingEdges, List.mem_filter] at he
  obtain ⟨hea, hec⟩ := he
  rw [activeEdges, List.mem_filter] at hea
  have hvs : v ∈ sharedVoxels e := by
    rw [orientedQuad] at hvq
    by_cases hf : flipFlag g e
    · rw [if_pos hf, List.mem_reverse] at hvq
      exact hvq
    · rw [if_neg hf] at hvq
      exact hvq
  exact ⟨e, edge_mem_voxelEdges hec hvs, hea.2⟩

/-- C5: in naive placement mode, the m-th output vertex is the arithmetic
mean of the crossing points of the m-th active voxel's active edges only —
the voxel's inactive edges are excluded from the mean, not counted in the
denominator (which is nonzero) — shifted back by the one-cell padding offset
and scaled per-axis by `spacing`. -/
theorem C5_naive_vertex_is_active_crossing_mean (g : SdfGrid) (sp : Pt) (m : ℕ) (v : Idx3)
    (h : (activeVoxels g)[m]? = some v) :
    activeCrossings g v ≠ [] ∧
    (vertices g sp Mode.naive)[m]? =
      some (some (ptMul (ptSub
        (ptSmul (((activeCrossings g v).length : ℚ))⁻¹ (ptSum (activeCrossings g v)))
        (1, 1, 1)) sp)) := by
  have hmem : v ∈ activeVoxels g := List.getElem?_mem h
  obtain ⟨e, he, hae⟩ := exists_active_edge_of_mem_activeVoxels hmem
  have hne : activeCrossings g v ≠ [] := by
    rw [activeCrossings]
    intro hcon
    have hmm : e ∈ (voxelEdges v).filter fun e => activeEdgeMask g e :=
      List.mem_filter.mpr ⟨he, hae⟩
    rw [List.map_eq_nil_iff.mp hcon] at hmm
    cases hmm
  refine ⟨hne, ?_⟩
  rw [vertices, List.getElem?_map, h, Option.map_some']
  congr 1
  have hcount : someCount ((voxelEdges v).map fun e => edgeIsect g Mode.naive e) =
      (activeCrossings g v).length := someCount_naive g (voxelEdges v)
  have hsum : someSum ((voxelEdges v).map fun e => edgeIsect g Mode.naive e) =
      ptSum (activeCrossings g v) := someSum_naive g (voxelEdges v)
  rw [nanMean, hcount, hsum,
    if_neg (fun hz => hne (List.length_eq_zero.mp hz)), Option.map_some']

/-- In midpoint mode every edge, active or not, is resolved at its
geometric midpoint. -/
theorem edgeIsect_midpoint (g : SdfGrid) (e : Edge) :
    edgeIsect g Mode.midpoint e =
      some (ptAdd (ptSmul (1 / 2) (toPt e.src)) (ptSmul (1 / 2) (toPt (edgeDst e)))) := by
  rw [edgeIsect, placedT, if_pos rfl, Option.map_some']
  norm_num

theorem finRange3 : List.finRange 3 = [0, 1, 2] := rfl

/-- The nanmean of the twelve edge midpoints of a voxel is the voxel's
geometric center. -/
theorem nanMean_voxel_midpoints (g : SdfGrid) (v : Idx3) :
    nanMean ((voxelEdges v).map fun e => edgeIsect g Mode.midpoint e) =
      some (ptAdd (toPt v) (1 / 2, 1 / 2, 1 / 2)) := by
  obtain ⟨x, y, z⟩ := v
  rw [voxelEdges, finRange3]
  simp only [List.flatMap_cons, List.flatMap_nil, List.append_nil, List.cons_append,
    List.map_cons, List.map_nil, edgeIsect_midpoint]
  rw [nanMean]
  simp only [someCount, someSum]
  norm_num [ptSum, ptAdd, ptSmul, toPt, edgeDst, addIdx, unitVec, Prod.ext_iff]
  refine ⟨?_, ?_, ?_⟩ <;> ring

/-- C6: in midpoint placement mode, the m-th output vertex is the geometric
center of the m-th active voxel — the cell center shifted back by the padding
offset and scaled per-axis by `spacing` — independently of the scalar values
sampled at the voxel's corners (the sample grid enters the position formula
only through the set of active voxels). -/
theorem C6_midpoint_vertex_is_cell_center (g : SdfGrid) (sp : Pt) (m : ℕ) (v : Idx3)
    (h : (activeVoxels g)[m]? = some v) :
    (vertices g sp Mode.midpoint)[m]? =
      some (some (ptMul (ptSub (ptAdd (toPt v) (1 / 2, 1 / 2, 1 / 2)) (1, 1, 1)) sp)) := by
  rw [vertices, List.getElem?_map, h, Option.map_some', nanMean_voxel_midpoints,
    Option.map_some']

/-- C9: `surface_nets` is deterministic — identical inputs (sample grid,
spacing, placement mode, triangulate flag) yield identical vertex and face
arrays.  The embedding is a pure function of its arguments, mirroring the
source, which performs a fixed sequence of deterministic array operations. -/
theorem C9_deterministic (g g' : SdfGrid) (sp sp' : Pt) (mode mode' : Mode)
    (tri tri' : Bool) (hg : g = g') (hsp : sp = sp') (hm : mode = mode')
    (ht : tri = tri') :
    surface_nets g sp mode tri = surface_nets g' sp' mode' tri' := by
  subst hg
  subst hsp
  subst hm
  subst ht
  rfl

/-- C10: the face array is independent of the vertex placement mode (and of
the spacing): the activity test and all of face assembly run before the
midpoint override of `t`, which only feeds vertex positions. -/
theorem C10_faces_mode_independent (g : SdfGrid) (sp sp' : Pt) (tri : Bool) :
    (surface_nets g sp Mode.midpoint tri).2 = (surface_nets g sp' Mode.naive tri).2 := rfl

/-- On `gEx` only the edge `eEx` can be active: any active edge has both
endpoints among the two real samples, which are adjacent along the third
axis. -/
theorem active_gEx_only_eEx (e : Edge) (h : activeEdgeMask gEx e = true) : e = eEx := by
  rcases h0 : paddedVal gEx e.src with _ | v0
  · rw [activeEdgeMask_nan (Or.inl h0)] at h
    cases h
  rcases h1 : paddedVal gEx (edgeDst e) with _ | v1
  · rw [activeEdgeMask_nan (Or.inr h1)] at h
    cases h
  obtain ⟨a, s⟩ := e
  obtain ⟨s1, s2, s3⟩ := s
  rw [paddedVal] at h0 h1
  split_ifs at h0 with hb0
  split_ifs at h1 with hb1
  simp only [edgeDst, addIdx, unitVec] at hb1
  rw [eEx]
  fin_cases a
  · exfalso
    simp only [unitVec, gEx] at hb0 hb1
    omega
  · exfalso
    simp only [unitVec, gEx] at hb0 hb1
    omega
  · simp only [unitVec, gEx] at hb0 hb1
    have hs : s1 = 1 ∧ s2 = 1 ∧ s3 = 1 := by omega
    obtain ⟨rfl, rfl, rfl⟩ := hs
    rfl

theorem activeEdges_gEx : activeEdges gEx = [eEx] := by
  have hmask : activeEdgeMask gEx eEx = true := by
    norm_num [activeEdgeMask, rawT, paddedVal, gEx, eEx, edgeDst, addIdx, unitVec]
  have hcongr : ∀ e ∈ gridEdges gEx, activeEdgeMask gEx e = (e == eEx) := by
    intro e _
    cases h : activeEdgeMask gEx e
    · cases hb : (e == eEx)
      · rfl
      · rw [beq_iff_eq] at hb
        rw [hb, hmask] at h
        cases h
    · rw [active_gEx_only_eEx e h, beq_self_eq_true]
  rw [activeEdges, List.filter_congr hcongr, List.filter_beq]
  show List.replicate ((gridEdges gEx).count eEx) eEx = [eEx]
  rw [show (gridEdges gEx).count eEx = 1 by decide]
  rfl

theorem survivingEdges_gEx : survivingEdges gEx = [eEx] := by
  rw [survivingEdges, activeEdges_gEx]
  decide

theorem flipFlag_gEx : flipFlag gEx eEx = false := by
  norm_num [flipFlag, sdfDiff, paddedVal, gEx, eEx, edgeDst, addIdx, unitVec]

theorem orientedQuad_gEx :
    orientedQuad gEx eEx = [(1, 1, 1), (0, 1, 1), (0, 0, 1), (1, 0, 1)] := by
  rw [orientedQuad, flipFlag_gEx]
  decide

theorem activeVoxels_gEx :
    activeVoxels gEx = [(0, 0, 1), (0, 1, 1), (1, 0, 1), (1, 1, 1)] := by
  rw [activeVoxels, survivingEdges_gEx]
  simp only [List.flatMap_cons, List.flatMap_nil, List.append_nil, orientedQuad_gEx]
  decide

theorem quadFaces_gEx : quadFaces gEx = [[3, 1, 0, 2]] := by
  rw [quadFaces, survivingEdges_gEx]
  simp only [List.map_cons, List.map_nil, orientedQuad_gEx, activeVoxels_gEx]
  decide

/-- Witness for C2, on the concrete grid `gEx`. -/
theorem C2_face_count_complete_edges_witness :
    ((surface_nets gEx (1, 1, 1) Mode.naive false).2.length =
      ((activeEdges gEx).filter fun e =>
        completeMask (gEx.ni + 2) (gEx.nj + 2) (gEx.nk + 2) e).length) ∧
    [3, 1, 0, 2] ∈ (surface_nets gEx (1, 1, 1) Mode.naive false).2 ∧
    ([3, 1, 0, 2] : List ℕ).length = 4 := by
  have hmem : [3, 1, 0, 2] ∈ (surface_nets gEx (1, 1, 1) Mode.naive false).2 := by
    rw [show (surface_nets gEx (1, 1, 1) Mode.naive false).2 = quadFaces gEx from rfl,
      quadFaces_gEx]
    exact List.mem_singleton_self _
  exact ⟨(C2_face_count_complete_edges gEx (1, 1, 1) Mode.naive).1, hmem,
    (C2_face_count_complete_edges gEx (1, 1, 1) Mode.naive).2 [3, 1, 0, 2] hmem⟩

/-- Witness for C3, on the concrete grid `gEx`. -/
theorem C3_face_order_and_winding_witness :
    (survivingEdges gEx)[0]? = some eEx ∧
    paddedVal gEx eEx.src = some (-1) ∧
    paddedVal gEx (edgeDst eEx) = some 3 ∧
    (quadFaces gEx)[0]? = some
      ((if (3 : ℚ) - (-1) < 0 then (sharedVoxels eEx).reverse else sharedVoxels eEx).map
        fun v => (activeVoxels gEx).indexOf v) := by
  have hm : (survivingEdges gEx)[0]? = some eEx := by
    rw [survivingEdges_gEx]
    rfl
  have h0 : paddedVal gEx eEx.src = some (-1) := by
    norm_num [paddedVal, gEx, eEx]
  have h1 : paddedVal gEx (edgeDst eEx) = some 3 := by
    norm_num [paddedVal, gEx, eEx, edgeDst, addIdx, unitVec]
  exact ⟨hm, h0, h1, C3_face_order_and_winding gEx 0 eEx (-1) 3 hm h0 h1⟩

/-- Witness for C4, on the concrete all-positive grid `gUniform`. -/
theorem C4_uniform_sign_empty_witness :
    (∀ i j k, i < gUniform.ni → j < gUniform.nj → k < gUniform.nk →
      0 < gUniform.val i j k) ∧
    surface_nets gUniform (1, 1, 1) Mode.naive false = ([], []) := by
  have hp : ∀ i j k, i < gUniform.ni → j < gUniform.nj → k < gUniform.nk →
      0 < gUniform.val i j k := fun i j k _ _ _ => by norm_num [gUniform]
  exact ⟨hp, C4_uniform_sign_empty gUniform (1, 1, 1) Mode.naive false (Or.inl hp)⟩

/-- Witness for C5, on the concrete grid `gEx`. -/
theorem C5_naive_vertex_witness :
    (activeVoxels gEx)[0]? = some (0, 0, 1) ∧
    activeCrossings gEx (0, 0, 1) ≠ [] ∧
    (vertices gEx (1, 1, 1) Mode.naive)[0]? =
      some (some (ptMul (ptSub
        (ptSmul (((activeCrossings gEx (0, 0, 1)).length : ℚ))⁻¹
          (ptSum (activeCrossings gEx (0, 0, 1)))) (1, 1, 1)) (1, 1, 1))) := by
  have h : (activeVoxels gEx)[0]? = some (0, 0, 1) := by
    rw [activeVoxels_gEx]
    rfl
  exact ⟨h, (C5_naive_vertex_is_active_crossing_mean gEx (1, 1, 1) 0 (0, 0, 1) h).1,
    (C5_naive_vertex_is_active_crossing_mean gEx (1, 1, 1) 0 (0, 0, 1) h).2⟩

/-- Witness for C6, on the concrete grid `gEx`. -/
theorem C6_midpoint_vertex_witness :
    (activeVoxels gEx)[0]? = some (0, 0, 1) ∧
    (vertices gEx (1, 1, 1) Mode.midpoint)[0]? =
      some (some (ptMul (ptSub (ptAdd (toPt (0, 0, 1)) (1 / 2, 1 / 2, 1 / 2)) (1, 1, 1))
        (1, 1, 1))) := by
  have h : (activeVoxels gEx)[0]? = some ((0 : ℕ), (0 : ℕ), (1 : ℕ)) := by
    rw [activeVoxels_gEx]
    rfl
  exact ⟨h, C6_midpoint_vertex_is_cell_center gEx (1, 1, 1) 0 (0, 0, 1) h⟩

/-- Witness for the amended C7, on the concrete grid `gEx`. -/
theorem C7_amended_witness :
    paddedVal gEx eEx.src = some (-1) ∧
    paddedVal gEx (edgeDst eEx) = some 3 ∧
    activeEdgeMask gEx eEx = true ∧
    placedT gEx Mode.midpoint eEx = some (1 / 2) ∧
    placedT gEx Mode.naive eEx = some (-(-1) / (3 - -1)) := by
  have h0 : paddedVal gEx eEx.src = some (-1) := by
    norm_num [paddedVal, gEx, eEx]
  have h1 : paddedVal gEx (edgeDst eEx) = some 3 := by
    norm_num [paddedVal, gEx, eEx, edgeDst, addIdx, unitVec]
  have ha : activeEdgeMask gEx eEx = true := by
    norm_num [activeEdgeMask, rawT, paddedVal, gEx, eEx, edgeDst, addIdx, unitVec]
  exact ⟨h0, h1, ha, (C7_amended_midpoint_half_naive_linear gEx eEx (-1) 3 h0 h1 ha).1,
    (C7_amended_midpoint_half_naive_linear gEx eEx (-1) 3 h0 h1 ha).2⟩

/-- Witness for the amended C8, on the concrete grid `gFlat`. -/
theorem C8_amended_witness :
    paddedVal gFlat eEx.src = some 1 ∧
    paddedVal gFlat (edgeDst eEx) = some 1 ∧
    rawT gFlat eEx = none ∧ activeEdgeMask gFlat eEx = false ∧
    maskedT gFlat eEx = none := by
  have h0 : paddedVal gFlat eEx.src = some 1 := by
    norm_num [paddedVal, gFlat, eEx]
  have h1 : paddedVal gFlat (edgeDst eEx) = some 1 := by
    norm_num [paddedVal, gFlat, eEx, edgeDst, addIdx, unitVec]
  obtain ⟨hr, hm, hk⟩ := C8_amended_zero_denominator_inactive gFlat eEx 1 h0 h1
  exact ⟨h0, h1, hr, hm, hk⟩

/-- Witness for C9: two literally identical invocations. -/
theorem C9_deterministic_witness :
    gEx = gEx ∧ ((1 : ℚ), (1 : ℚ), (1 : ℚ)) = ((1 : ℚ), (1 : ℚ), (1 : ℚ)) ∧
    Mode.naive = Mode.naive ∧ (false = false) ∧
    surface_nets gEx (1, 1, 1) Mode.naive false =
      surface_nets gEx (1, 1, 1) Mode.naive false :=
  ⟨rfl, rfl, rfl, rfl, C9_deterministic gEx gEx (1, 1, 1) (1, 1, 1) Mode.naive Mode.naive
    false false rfl rfl rfl rfl⟩

end SurfaceNets
